import Mathlib

/-!
# Verification of the pulsion-sb-api analytics service

Shallow embedding of `main.py` (FastAPI read-only analytics API over market
snapshots) and proofs about its range resolver, time-series queries, and the
bounded-capital profitability ranking.

Modelling conventions:
* Timestamps (`datetime`) are integers (seconds); `timedelta` values are
  integer second counts.
* JSON numeric payload fields (read through `.as_float()`) are exact
  rationals `ℚ`; an absent field is `none`.  All arithmetic the endpoints
  perform on the claim-relevant values is exact in both `float` and `ℚ`.
* A SQL query is a pure function on the list of table rows: `WHERE` is
  `List.filter`, `ORDER BY` is a stable `List.mergeSort`, `DISTINCT ON` keeps
  the first row of each key group.
* An `HTTPException` is the `Except.error` branch carrying status and detail.
-/

namespace PulsionSB

/-- The numeric fields of a bazaar snapshot's JSON `data` payload that the
endpoints read (via `Bazaar.data['sellPrice'].as_float()` etc.); a missing
field yields SQL `NULL`, i.e. `none`. -/
structure Payload where
  sellPrice : Option ℚ
  buyPrice : Option ℚ
  sellMovingWeek : Option ℚ
  deriving DecidableEq, Repr

/-- A row of the `bazaar` table (`db/models.py`, class `Bazaar`). -/
structure Bazaar where
  id : Nat
  product_id : String
  timestamp : Int
  data : Payload
  deriving DecidableEq, Repr

/-- From `main.py` line 12: `CAPITAL = 1_000_000_000`. -/
def CAPITAL : ℚ := 1000000000

/-- From `main.py` line 13: `MARKET_SHARE = 0.10`. -/
def MARKET_SHARE : ℚ := 1/10

/-- From `main.py` line 14: `SCALING_FACTOR = 1`. -/
def SCALING_FACTOR : ℚ := 1

/-- Python `timedelta(days = d)` in seconds. -/
def timedelta_days (d : Nat) : Int := d * 86400

/-- Python `timedelta(weeks = w)` in seconds. -/
def timedelta_weeks (w : Nat) : Int := w * 604800

/-- Python `timedelta(hours = h)` in seconds. -/
def timedelta_hours (h : Nat) : Int := h * 3600

/-- From `main.py` lines 40-49, `parse_range`: a dictionary lookup `m.get(r)`.
The key `'all'` is bound to `None`, and `dict.get` returns `None` for any
absent key, so `'all'` and every unrecognized token both yield `none`. -/
def parse_range (r : String) : Option Int :=
  if r = "6months" then some (timedelta_days 180)
  else if r = "2months" then some (timedelta_days 60)
  else if r = "1week" then some (timedelta_weeks 1)
  else if r = "1day" then some (timedelta_days 1)
  else if r = "latest" then some (timedelta_hours 2)
  else none

/-- From `main.py` lines 52-57, `apply_time_filters`: conditionally adds
`field >= start` and `field <= end` filters.  `start`/`end` are `None` or a
`datetime` (always truthy), captured by `Option`. -/
def apply_time_filters (rows : List Bazaar) (start stop : Option Int) :
    List Bazaar :=
  let r1 := match start with
    | none => rows
    | some s => rows.filter (fun b => decide (s ≤ b.timestamp))
  match stop with
  | none => r1
  | some t => r1.filter (fun b => decide (b.timestamp ≤ t))

/-- An `HTTPException(code, detail)`. -/
structure HTTPError where
  code : Nat
  detail : String
  deriving DecidableEq, Repr

/-- From `main.py` line 68: `start = None if range == 'all' or td is None else
now - td`. -/
def price_start (range : String) (now : Int) : Option Int :=
  if range = "all" ∨ parse_range range = none then none
  else (parse_range range).map (fun d => now - d)

/-- The rows `get_prices` selects: `WHERE product_id == item_id` plus the
time filters, `ORDER BY timestamp` ascending (`main.py` lines 70-73). -/
def prices_rows (db : List Bazaar) (item_id : String) (range : String)
    (now : Int) : List Bazaar :=
  (apply_time_filters (db.filter (fun b => decide (b.product_id = item_id)))
    (price_start range now) (some now)).mergeSort
    (fun a b => decide (a.timestamp ≤ b.timestamp))

/-- From `main.py` lines 60-78, `GET /prices/{item_id}`: 404 when no row matches,
otherwise the matching rows as `(timestamp, data)` pairs. -/
def get_prices (db : List Bazaar) (item_id : String) (range : String)
    (now : Int) : Except HTTPError (List (Int × Payload)) :=
  if (prices_rows db item_id range now).isEmpty then
    Except.error ⟨404, "No bazaar data for item " ++ item_id⟩
  else
    Except.ok ((prices_rows db item_id range now).map
      (fun b => (b.timestamp, b.data)))

/-- The rows `get_bazaar_sold` orders:
`WHERE product_id == item_id ORDER BY timestamp DESC`. -/
def sold_rows (db : List Bazaar) (item_id : String) : List Bazaar :=
  (db.filter (fun b => decide (b.product_id = item_id))).mergeSort
    (fun a b => decide (b.timestamp ≤ a.timestamp))

/-- From `main.py` lines 81-91, `GET /sold/{item_id}`: the `data` payload of the
first row of the descending-ordered matching rows (`.first()`), or 404 when
there is none. -/
def get_bazaar_sold (db : List Bazaar) (item_id : String) :
    Except HTTPError Payload :=
  match sold_rows db item_id with
  | [] => Except.error ⟨404, "No bazaar data for item " ++ item_id⟩
  | r :: _ => Except.ok r.data

/-- Python truthiness of an optional float: `None` and `0.0` are falsy. -/
def truthy : Option ℚ → Bool
  | none => false
  | some x => decide (x ≠ 0)

/-- Python `int()` applied to a (here: rational) number truncates toward
zero: the floor for a nonnegative argument, minus the floor of the negation
for a negative one. -/
def int_py (q : ℚ) : Int := if q < 0 then -⌊-q⌋ else ⌊q⌋

/-- From `main.py` line 153: `cap_by_money = int(CAPITAL // buy_p)`; float
floor-division is the floor of the exact quotient and `int()` of that
integral value is the identity. -/
def cap_by_money (buy_p : ℚ) : Int := ⌊CAPITAL / buy_p⌋

/-- From `main.py` line 154: `cap_by_market = int(MARKET_SHARE * vol_w)`. -/
def cap_by_market (vol_w : ℚ) : Int := int_py (MARKET_SHARE * vol_w)

/-- Response row of `GET /top` (`main.py` lines 94-102 and 163-172). -/
structure ItemProfit where
  item_id : String
  sell_price : ℚ
  buy_price : ℚ
  weekly_volume : ℚ
  spread : ℚ
  max_units : Int
  profit_estimate : ℚ
  roi : ℚ
  deriving DecidableEq, Repr

/-- One iteration of the scoring loop in `get_top` (`main.py` lines
142-172): `none` when the row is discarded by any of the three `continue`
guards, otherwise the scored dictionary.  The Python guard
`not (sell_p and buy_p and vol_w and sell_p > 0 and buy_p > 0)` tests the
three values for truthiness and only the two prices for positivity; the
`> 0` comparisons are reached only after the truthiness conjuncts, so the
`Option.getD 0` defaults are never the deciding value. -/
def score (item_id : String) (sell_p buy_p vol_w : Option ℚ) :
    Option ItemProfit :=
  if truthy sell_p && truthy buy_p && truthy vol_w
      && decide (0 < sell_p.getD 0) && decide (0 < buy_p.getD 0) then
    let sp := sell_p.getD 0
    let bp := buy_p.getD 0
    let v := vol_w.getD 0
    let spread := bp - sp
    if spread ≤ 0 then none
    else
      let units_max := min (cap_by_money bp) (cap_by_market v)
      if units_max < 1 then none
      else
        let profit := spread * (units_max : ℚ) / SCALING_FACTOR
        some ⟨item_id, sp, bp, v, spread, units_max, profit, profit / CAPITAL⟩
  else none

/-- The stage of the `get_top` loop at which a candidate row is eliminated:
`absence` is the truthiness/positivity guard (line 144), `spreadCheck` the
`spread <= 0` guard (line 149), `capsCheck` the `units_max < 1` guard
(line 156); `kept` means the row is scored. -/
inductive Stage where
  | absence
  | spreadCheck
  | capsCheck
  | kept
  deriving DecidableEq, Repr

/-- Which guard of the `get_top` loop discards a row, following the source
order of `main.py` lines 142-157. -/
def discard_stage (sell_p buy_p vol_w : Option ℚ) : Stage :=
  if truthy sell_p && truthy buy_p && truthy vol_w
      && decide (0 < sell_p.getD 0) && decide (0 < buy_p.getD 0) then
    let spread := buy_p.getD 0 - sell_p.getD 0
    if spread ≤ 0 then Stage.spreadCheck
    else if min (cap_by_money (buy_p.getD 0)) (cap_by_market (vol_w.getD 0))
        < 1 then Stage.capsCheck
    else Stage.kept
  else Stage.absence

/-- Comparison used by the `DISTINCT ON` subquery of `get_top`
(`ORDER BY product_id, timestamp DESC`, `main.py` line 134). -/
def subq_le (a b : Bazaar) : Bool :=
  decide (a.product_id < b.product_id) ||
    (decide (a.product_id = b.product_id) && decide (b.timestamp ≤ a.timestamp))

/-- Keep the first row of each `product_id` group, scanning left to right
(the effect of SQL `DISTINCT ON (product_id)` on an ordered row list). -/
def dedup_keep_first (seen : List String) : List Bazaar → List Bazaar
  | [] => []
  | r :: rest =>
    if r.product_id ∈ seen then dedup_keep_first seen rest
    else r :: dedup_keep_first (r.product_id :: seen) rest

/-- The `subq` of `get_top` (`main.py` lines 127-137): latest snapshot per
item, i.e. `DISTINCT ON (product_id)` over rows ordered by
`(product_id, timestamp DESC)`. -/
def latest_snapshots (db : List Bazaar) : List Bazaar :=
  dedup_keep_first [] (db.mergeSort subq_le)

/-- The `scored` list built by the loop of `get_top` (lines 141-172). -/
def scored_items (db : List Bazaar) : List ItemProfit :=
  (latest_snapshots db).filterMap
    (fun b => score b.product_id b.data.sellPrice b.data.buyPrice
      b.data.sellMovingWeek)

/-- The call `scored.sort(key = profit_estimate, reverse = True)` (line 175): a
stable descending sort by `profit_estimate`. -/
def sorted_items (db : List Bazaar) : List ItemProfit :=
  (scored_items db).mergeSort
    (fun a b => decide (b.profit_estimate ≤ a.profit_estimate))

/-- From `main.py` lines 110-178, `GET /top?top=n`: the query parameter is
declared `ge=10, le=100`, so FastAPI rejects out-of-range values with a 422
validation error before the handler runs; otherwise the handler returns the
first `top` entries of the scored list sorted descending by profit. -/
def get_top (db : List Bazaar) (top : Nat) : Except Nat (List ItemProfit) :=
  if top < 10 ∨ 100 < top then Except.error 422
  else Except.ok ((sorted_items db).take top)

/-- From `main.py` lines 195-198, `GET /items`:
`sorted({product_id of each bazaar row})` — distinct ids, sorted ascending. -/
def list_items (db : List Bazaar) : List String :=
  ((db.map (fun b => b.product_id)).dedup).mergeSort
    (fun a b => decide (a ≤ b))

/-! ## Helper lemmas -/

/-- The scoring loop keeps a row exactly when no guard discards it. -/
theorem score_eq_none_iff (i : String) (s b v : Option ℚ) :
    score i s b v = none ↔ discard_stage s b v ≠ Stage.kept := by
  unfold score discard_stage
  split_ifs <;> simp_all
  split <;> simp

/-- A negative volume gives a non-positive market cap: `int()` truncates
toward zero, so a negative product truncates to a non-positive integer. -/
theorem cap_by_market_nonpos {v : ℚ} (hv : v < 0) : cap_by_market v ≤ 0 := by
  have hq : MARKET_SHARE * v < 0 := by
    have : (0 : ℚ) < MARKET_SHARE := by norm_num [MARKET_SHARE]
    exact mul_neg_of_pos_of_neg this hv
  rw [cap_by_market, int_py, if_pos hq]
  simp only [neg_nonpos, Left.nonneg_neg_iff]
  rw [Int.le_floor]
  push_cast
  linarith

/-- Python `int()` truncation reaches 1 only from an argument that is at least 1. -/
theorem one_le_of_one_le_int_py {q : ℚ} (h : 1 ≤ int_py q) : 1 ≤ q := by
  rw [int_py] at h
  split_ifs at h with hq
  · exfalso
    have h0 : (0 : ℤ) ≤ ⌊-q⌋ := Int.floor_nonneg.mpr (by linarith)
    linarith
  · exact_mod_cast Int.le_floor.mp h

/-- Any row the scoring loop keeps has positive volume, prices and spread
and at least one tradeable unit. -/
theorem score_some_props {i : String} {sp bp v : Option ℚ} {x : ItemProfit}
    (h : score i sp bp v = some x) :
    0 < x.weekly_volume ∧ 0 < x.buy_price ∧ 0 < x.sell_price ∧
    0 < x.spread ∧ 1 ≤ x.max_units := by
  simp only [score] at h
  split_ifs at h with h1 h2 h3 <;> try exact Option.noConfusion h
  rw [Option.some_inj] at h
  subst h
  simp only [Bool.and_eq_true, decide_eq_true_eq] at h1
  obtain ⟨⟨⟨⟨hts, htb⟩, htv⟩, hsp⟩, hbp⟩ := h1
  push_neg at h2 h3
  have hcapm : 1 ≤ cap_by_market (v.getD 0) := le_trans h3 (min_le_right _ _)
  have hq : 1 ≤ MARKET_SHARE * v.getD 0 := one_le_of_one_le_int_py hcapm
  rw [MARKET_SHARE] at hq
  refine ⟨show (0 : ℚ) < v.getD 0 by linarith, hbp, hsp,
    show (0 : ℚ) < bp.getD 0 - sp.getD 0 by linarith, h3⟩

/-- Evaluation of the scoring loop at the spec's worked example. -/
theorem score_10_12_1000 (i : String) :
    score i (some 10) (some 12) (some 1000) =
      some ⟨i, 10, 12, 1000, 2, 100, 200, 200 / 1000000000⟩ := by
  have hmoney : cap_by_money 12 = 83333333 := by
    rw [cap_by_money, CAPITAL, Int.floor_eq_iff]
    norm_num
  have hmarket : cap_by_market 1000 = 100 := by
    rw [cap_by_market, MARKET_SHARE, int_py, if_neg (by norm_num),
      Int.floor_eq_iff]
    norm_num
  rw [score]
  norm_num [truthy, hmoney, hmarket, SCALING_FACTOR, CAPITAL]

/-- A one-row example database: one bazaar snapshot of item "A" with the
spec's worked-example payload. -/
def exampleRow : Bazaar := ⟨1, "A", 0, ⟨some 10, some 12, some 1000⟩⟩

/-- The database holding only `exampleRow`. -/
def exampleDB : List Bazaar := [exampleRow]

/-- The scored entry produced from `exampleRow`. -/
def exampleItem : ItemProfit := ⟨"A", 10, 12, 1000, 2, 100, 200, 200 / 1000000000⟩

/-- Concrete run of the ranking endpoint on the one-row database. -/
theorem get_top_exampleDB : get_top exampleDB 10 = Except.ok [exampleItem] := by
  have h1 : latest_snapshots exampleDB = [exampleRow] := by
    rw [latest_snapshots, exampleDB, List.mergeSort_singleton]
    simp [dedup_keep_first]
  have h2 : scored_items exampleDB = [exampleItem] := by
    rw [scored_items, h1]
    simp only [List.filterMap, exampleRow, score_10_12_1000]
    rfl
  have h3 : sorted_items exampleDB = [exampleItem] := by
    rw [sorted_items, h2, List.mergeSort_singleton]
  rw [get_top, if_neg (by norm_num), h3]
  rfl

/-! ## Claims -/

/-- C3: `parse_range` maps "6months" to a 180-day duration, "2months" to 60
days, "1week" to 1 week, "1day" to 1 day, "latest" to 2 hours, and "all" to
`none`; every other input string also yields `none`, silently, identical to
the "all" result. -/
theorem claim_C3_parse_range :
    parse_range "6months" = some (timedelta_days 180) ∧
    parse_range "2months" = some (timedelta_days 60) ∧
    parse_range "1week" = some (timedelta_weeks 1) ∧
    parse_range "1day" = some (timedelta_days 1) ∧
    parse_range "latest" = some (timedelta_hours 2) ∧
    parse_range "all" = none ∧
    (∀ r : String,
      r ∉ (["6months", "2months", "1week", "1day", "latest"] : List String) →
      parse_range r = none ∧ parse_range r = parse_range "all") := by
  refine ⟨rfl, rfl, rfl, rfl, rfl, rfl, ?_⟩
  intro r hr
  simp only [List.mem_cons, List.not_mem_nil, or_false, not_or] at hr
  obtain ⟨h1, h2, h3, h4, h5⟩ := hr
  unfold parse_range
  rw [if_neg h1, if_neg h2, if_neg h3, if_neg h4, if_neg h5]
  exact ⟨rfl, rfl⟩

/-- Witness for C3 at the concrete unrecognized token "bogus". -/
theorem claim_C3_witness :
    parse_range "bogus" = none ∧ parse_range "bogus" = parse_range "all" :=
  claim_C3_parse_range.2.2.2.2.2.2 "bogus" (by decide)

/-- C4 counterexample: the claim says "1hour" resolves to some duration, but
`parse_range` has no entry for it and returns `none`. -/
theorem claim_C4_counterexample : parse_range "1hour" = none := rfl

/-- C4 amended: every token of {6months, 2months, 1week, 1day, latest}
resolves to some duration; "all" resolves to no lower bound, and "1hour" is
not in the map, so it also resolves to `none` exactly like "all". -/
theorem claim_C4_amended :
    (∀ r ∈ (["6months", "2months", "1week", "1day", "latest"] : List String),
      ∃ d : Int, parse_range r = some d) ∧
    parse_range "all" = none ∧ parse_range "1hour" = none := by
  refine ⟨?_, rfl, rfl⟩
  intro r hr
  fin_cases hr <;> exact ⟨_, rfl⟩

/-- Witness for C4 (amended) at the concrete token "latest". -/
theorem claim_C4_amended_witness :
    ∃ d : Int, parse_range "latest" = some d :=
  claim_C4_amended.1 "latest" (by decide)

/-- C1: the item with latest snapshot `sell_price = 10`, `buy_price = 12`,
`weekly_volume = 1000` is retained by the ranking with `spread = 2`,
`cap_by_capital = floor(1e9 / 12) = 83333333`,
`cap_by_market = floor(0.10 * 1000) = 100`, `max_units = 100`,
`profit_estimate = 200` and `roi = 200 / 1e9`; both caps agree with the
floor of the exact quotient/product. -/
theorem claim_C1_ranking_example :
    score "ITEM" (some 10) (some 12) (some 1000) =
      some ⟨"ITEM", 10, 12, 1000, 2, 100, 200, 200 / 1000000000⟩ ∧
    cap_by_money 12 = 83333333 ∧
    cap_by_money 12 = ⌊(1000000000 : ℚ) / 12⌋ ∧
    cap_by_market 1000 = 100 ∧
    cap_by_market 1000 = ⌊(1 / 10 : ℚ) * 1000⌋ ∧
    min (cap_by_money 12) (cap_by_market 1000) = 100 ∧
    (200 : ℚ) / CAPITAL = 200 / 1000000000 := by
  have hmoney : cap_by_money 12 = 83333333 := by
    rw [cap_by_money, CAPITAL, Int.floor_eq_iff] <;> norm_num
  have hmarket : cap_by_market 1000 = 100 := by
    rw [cap_by_market, MARKET_SHARE, int_py, if_neg (by norm_num),
      Int.floor_eq_iff] <;> norm_num
  refine ⟨score_10_12_1000 "ITEM", hmoney, rfl, hmarket, ?_, ?_, ?_⟩
  · rw [hmarket, eq_comm, Int.floor_eq_iff] <;> norm_num
  · rw [hmoney, hmarket]; norm_num
  · rw [CAPITAL]

/-- C2 counterexample: the row `sell_price = 1, buy_price = 2,
weekly_volume = -5` has a negative weekly volume, yet it is discarded at the
caps guard, not at the absence guard as the claim states — the absence guard
tests the volume only for truthiness. -/
theorem claim_C2_counterexample :
    discard_stage (some 1) (some 2) (some (-5)) = Stage.capsCheck ∧
    Stage.capsCheck ≠ Stage.absence := by
  refine ⟨?_, by decide⟩
  have hm : cap_by_market (-5) ≤ 0 := cap_by_market_nonpos (by norm_num)
  have hmin : min (cap_by_money 2) (cap_by_market (-5)) < 1 :=
    lt_of_le_of_lt (le_trans (min_le_right _ _) hm) one_pos
  simp only [discard_stage, truthy, Option.getD_some]
  rw [if_pos (by norm_num), if_neg (by norm_num), if_pos hmin]

/-- C2 amended: the discard order of the ranking loop is: first the absence
guard, which discards exactly the rows where a price or the volume is absent
or zero, or a price is non-positive (the volume is tested only for
truthiness, not positivity); then the `spread <= 0` guard; then the
`max_units < 1` guard.  An item with `buy_price = 5, sell_price = 8` is
excluded unconditionally.  An item with a negative weekly volume and
otherwise valid prices and spread passes the absence guard and is discarded
at the caps guard instead. -/
theorem claim_C2_amended :
    (∀ s b v : Option ℚ,
      (discard_stage s b v = Stage.absence ↔
        ¬(truthy s = true ∧ truthy b = true ∧ truthy v = true ∧
          0 < s.getD 0 ∧ 0 < b.getD 0)) ∧
      (discard_stage s b v = Stage.spreadCheck ↔
        (truthy s = true ∧ truthy b = true ∧ truthy v = true ∧
          0 < s.getD 0 ∧ 0 < b.getD 0) ∧ b.getD 0 - s.getD 0 ≤ 0) ∧
      (discard_stage s b v = Stage.capsCheck ↔
        (truthy s = true ∧ truthy b = true ∧ truthy v = true ∧
          0 < s.getD 0 ∧ 0 < b.getD 0) ∧ 0 < b.getD 0 - s.getD 0 ∧
          min (cap_by_money (b.getD 0)) (cap_by_market (v.getD 0)) < 1) ∧
      (∀ i, score i s b v = none ↔ discard_stage s b v ≠ Stage.kept)) ∧
    (∀ (i : String) (w : Option ℚ), score i (some 8) (some 5) w = none) ∧
    (∀ sp bp vv : ℚ, 0 < sp → sp < bp → vv < 0 →
      discard_stage (some sp) (some bp) (some vv) = Stage.capsCheck) := by
  refine ⟨fun s b v =>
    ⟨?_, ?_, ?_, fun i => score_eq_none_iff i s b v⟩, ?_, ?_⟩
  · simp only [discard_stage]
    split_ifs with h1 h2 h3 <;>
      simp_all [Bool.and_eq_true, decide_eq_true_eq]
  · simp only [discard_stage]
    split_ifs with h1 h2 h3 <;>
      simp_all [Bool.and_eq_true, decide_eq_true_eq] <;> linarith
  · simp only [discard_stage]
    split_ifs with h1 h2 h3 <;>
      simp_all [Bool.and_eq_true, decide_eq_true_eq] <;> linarith
  · intro i w
    simp only [score]
    split_ifs with h1 h2 h3 <;>
      simp_all [Bool.and_eq_true, decide_eq_true_eq] <;> linarith
  · intro sp bp vv hsp hlt hvv
    have hcap : cap_by_market vv ≤ 0 := cap_by_market_nonpos hvv
    have hmin : min (cap_by_money bp) (cap_by_market vv) < 1 :=
      lt_of_le_of_lt (le_trans (min_le_right _ _) hcap) one_pos
    simp only [discard_stage, truthy, Option.getD_some]
    rw [if_pos, if_neg (by simp only [sub_nonpos, not_le]; exact hlt),
      if_pos hmin]
    simp only [Bool.and_eq_true, decide_eq_true_eq]
    refine ⟨⟨⟨⟨ne_of_gt hsp, ne_of_gt (lt_trans hsp hlt)⟩, ne_of_lt hvv⟩,
      hsp⟩, lt_trans hsp hlt⟩

/-- Witness for C2 (amended): a concrete negative-volume row lands on the
caps guard and the buy=5/sell=8 row is excluded. -/
theorem claim_C2_amended_witness :
    discard_stage (some 1) (some 3) (some (-2)) = Stage.capsCheck ∧
    score "X" (some 8) (some 5) (some 7) = none :=
  ⟨claim_C2_amended.2.2 1 3 (-2) (by norm_num) (by norm_num) (by norm_num),
   claim_C2_amended.2.1 "X" (some 7)⟩

/-- C10: every entry `GET /top` returns has positive weekly volume, prices
and spread, and `max_units >= 1` — a negative weekly volume survives the
absence guard but is eliminated by the non-positive market cap before
output. -/
theorem claim_C10_top_invariant :
    ∀ (db : List Bazaar) (top : Nat) (out : List ItemProfit),
      get_top db top = Except.ok out →
      ∀ x ∈ out, 0 < x.weekly_volume ∧ 0 < x.buy_price ∧
        0 < x.sell_price ∧ 0 < x.spread ∧ 1 ≤ x.max_units := by
  intro db top out hok x hx
  rw [get_top] at hok
  split_ifs at hok <;> try exact Except.noConfusion hok
  have hout : (sorted_items db).take top = out := by
    injection hok
  have hxs : x ∈ sorted_items db := List.take_subset top _ (hout ▸ hx)
  have hxsc : x ∈ scored_items db :=
    ((List.mergeSort_perm (scored_items db) _).mem_iff).mp
      (by rw [sorted_items] at hxs; exact hxs)
  obtain ⟨b, _, hsc⟩ := List.mem_filterMap.mp hxsc
  exact score_some_props hsc

/-- Witness for C10 on the one-row example database. -/
theorem claim_C10_witness :
    0 < exampleItem.weekly_volume ∧ 0 < exampleItem.buy_price ∧
    0 < exampleItem.sell_price ∧ 0 < exampleItem.spread ∧
    1 ≤ exampleItem.max_units :=
  claim_C10_top_invariant exampleDB 10 [exampleItem] get_top_exampleDB
    exampleItem (by simp)

/-- C7: `GET /top` with `n` outside 10..100 is rejected with a 422
validation error; otherwise the response is exactly the first `n` entries of
the scored list sorted descending by `profit_estimate`, hence has at most
`n` entries, and every returned entry's profit estimate is at least that of
every retained entry that is not returned. -/
theorem claim_C7_top_sorted :
    ∀ (db : List Bazaar) (top : Nat),
      ((top < 10 ∨ 100 < top) → get_top db top = Except.error 422) ∧
      (∀ out, get_top db top = Except.ok out →
        out = (sorted_items db).take top ∧
        out.length ≤ top ∧
        ∀ x ∈ out, ∀ y ∈ scored_items db, y ∉ out →
          y.profit_estimate ≤ x.profit_estimate) := by
  intro db top
  constructor
  · intro h
    rw [get_top, if_pos h]
  · intro out hok
    rw [get_top] at hok
    split_ifs at hok <;> try exact Except.noConfusion hok
    have hout : (sorted_items db).take top = out := by
      injection hok
    refine ⟨hout.symm, ?_, ?_⟩
    · rw [← hout]
      exact List.length_take_le _ _
    · have hsorted : List.Pairwise
          (fun a b : ItemProfit =>
            decide (b.profit_estimate ≤ a.profit_estimate) = true)
          (sorted_items db) := by
        rw [sorted_items]
        exact List.sorted_mergeSort
          (fun a b c hab hbc => by
            simp only [decide_eq_true_eq] at hab hbc ⊢
            linarith)
          (fun a b => by
            simp only [Bool.or_eq_true, decide_eq_true_eq]
            exact le_total b.profit_estimate a.profit_estimate)
          (scored_items db)
      intro x hx y hy hyout
      have hyL : y ∈ sorted_items db := by
        rw [sorted_items]
        exact ((List.mergeSort_perm (scored_items db) _).mem_iff).mpr hy
      have hyDrop : y ∈ (sorted_items db).drop top := by
        rcases List.mem_append.mp
            ((List.take_append_drop top (sorted_items db)) ▸ hyL) with h | h
        · exact absurd (hout ▸ h) hyout
        · exact h
      have hpa := (List.pairwise_append.mp
        ((List.take_append_drop top (sorted_items db)).symm ▸ hsorted)).2.2
      have := hpa x (hout ▸ hx) y hyDrop
      simpa using this

/-- Witness for C7: the out-of-range request and the in-range request on the
one-row example database. -/
theorem claim_C7_witness :
    get_top exampleDB 5 = Except.error 422 ∧
    [exampleItem] = (sorted_items exampleDB).take 10 ∧
    [exampleItem].length ≤ 10 := by
  refine ⟨(claim_C7_top_sorted exampleDB 5).1 (Or.inl (by norm_num)), ?_, ?_⟩
  · exact ((claim_C7_top_sorted exampleDB 10).2 [exampleItem]
      get_top_exampleDB).1
  · exact ((claim_C7_top_sorted exampleDB 10).2 [exampleItem]
      get_top_exampleDB).2.1

/-- Membership in the result of the time filters. -/
theorem mem_apply_time_filters {rows : List Bazaar} {start stop : Option Int}
    {b : Bazaar} (h : b ∈ apply_time_filters rows start stop) :
    b ∈ rows ∧ (∀ s, start = some s → s ≤ b.timestamp) ∧
      (∀ t, stop = some t → b.timestamp ≤ t) := by
  cases start <;> cases stop <;>
    simp_all [apply_time_filters, List.mem_filter]

/-- Any selected price row belongs to the table, matches the item and lies
in the requested window. -/
theorem mem_prices_rows {db : List Bazaar} {item_id range : String}
    {now : Int} {b : Bazaar} (h : b ∈ prices_rows db item_id range now) :
    b ∈ db ∧ b.product_id = item_id ∧
      (∀ d, parse_range range = some d → now - d ≤ b.timestamp) ∧
      b.timestamp ≤ now := by
  rw [prices_rows] at h
  have h2 := (List.mergeSort_perm _ _).mem_iff.mp h
  obtain ⟨hmem, hstart, hstop⟩ := mem_apply_time_filters h2
  rw [List.mem_filter] at hmem
  obtain ⟨hdb, hpid⟩ := hmem
  simp only [decide_eq_true_eq] at hpid
  refine ⟨hdb, hpid, ?_, hstop now rfl⟩
  intro d hd
  refine hstart (now - d) ?_
  rw [price_start, if_neg]
  · rw [hd]
    rfl
  · push_neg
    constructor
    · intro heq
      rw [heq] at hd
      have hall : parse_range "all" = none := rfl
      rw [hall] at hd
      exact Option.noConfusion hd
    · rw [hd]
      exact Option.noConfusion

/-- The selected price rows are sorted ascending by timestamp. -/
theorem prices_rows_sorted (db : List Bazaar) (item_id range : String)
    (now : Int) :
    List.Pairwise (fun a b : Bazaar =>
      decide (a.timestamp ≤ b.timestamp) = true)
      (prices_rows db item_id range now) := by
  rw [prices_rows]
  exact List.sorted_mergeSort
    (fun a b c hab hbc => by
      simp only [decide_eq_true_eq] at hab hbc ⊢
      exact le_trans hab hbc)
    (fun a b => by
      simp only [Bool.or_eq_true, decide_eq_true_eq]
      exact le_total a.timestamp b.timestamp) _

/-- Concrete evaluation of the selected price rows on the example
database. -/
theorem prices_rows_exampleDB :
    prices_rows exampleDB "A" "all" 5 = [exampleRow] := by
  rw [prices_rows, price_start]
  simp [exampleDB, exampleRow, apply_time_filters, List.mergeSort_singleton]

/-- Concrete run of the prices endpoint on the example database. -/
theorem get_prices_exampleDB :
    get_prices exampleDB "A" "all" 5 = Except.ok [(0, exampleRow.data)] := by
  rw [get_prices, prices_rows_exampleDB]
  rfl

/-- C5: every row returned by a successful `GET /prices/{item_id}?range=r`
stems from a table row with the requested product id, its timestamp lies in
the window (the lower bound applies exactly when the range token resolves to
a duration), and the returned sequence is non-decreasing by timestamp. -/
theorem claim_C5_prices_window :
    ∀ (db : List Bazaar) (item_id range : String) (now : Int)
      (out : List (Int × Payload)),
      get_prices db item_id range now = Except.ok out →
      (∀ p ∈ out,
        (∃ b ∈ db, b.product_id = item_id ∧ b.timestamp = p.1 ∧
          b.data = p.2) ∧
        (∀ d, parse_range range = some d → now - d ≤ p.1) ∧ p.1 ≤ now) ∧
      List.Pairwise (fun s t : Int => s ≤ t) (out.map Prod.fst) := by
  intro db item_id range now out hok
  rw [get_prices] at hok
  split_ifs at hok <;> try exact Except.noConfusion hok
  have hout : (prices_rows db item_id range now).map
      (fun b => (b.timestamp, b.data)) = out := by
    injection hok
  constructor
  · intro p hp
    rw [← hout] at hp
    obtain ⟨b, hb, hpb⟩ := List.mem_map.mp hp
    obtain ⟨hdb, hpid, hlow, hup⟩ := mem_prices_rows hb
    subst hpb
    exact ⟨⟨b, hdb, hpid, rfl, rfl⟩, hlow, hup⟩
  · rw [← hout, List.map_map]
    refine List.pairwise_map.mpr ?_
    exact (prices_rows_sorted db item_id range now).imp
      (fun h => by simpa using h)

/-- Witness for C5 on the example database with range "all". -/
theorem claim_C5_witness :
    (∀ p ∈ [((0 : Int), exampleRow.data)],
      (∃ b ∈ exampleDB, b.product_id = "A" ∧ b.timestamp = p.1 ∧
        b.data = p.2) ∧
      (∀ d, parse_range "all" = some d → 5 - d ≤ p.1) ∧ p.1 ≤ 5) ∧
    List.Pairwise (fun s t : Int => s ≤ t)
      ([((0 : Int), exampleRow.data)].map Prod.fst) :=
  claim_C5_prices_window exampleDB "A" "all" 5 [(0, exampleRow.data)]
    get_prices_exampleDB

/-- C6: `GET /prices/{item_id}` returns a 404 whose message names the
requested item exactly when no row matches the id and window; it never
returns an empty 200, and with at least one matching row it returns 200. -/
theorem claim_C6_prices_404 :
    ∀ (db : List Bazaar) (item_id range : String) (now : Int),
      (get_prices db item_id range now =
          Except.error ⟨404, "No bazaar data for item " ++ item_id⟩ ↔
        prices_rows db item_id range now = []) ∧
      (prices_rows db item_id range now ≠ [] →
        ∃ out, get_prices db item_id range now = Except.ok out ∧
          out ≠ []) ∧
      (∀ out, get_prices db item_id range now = Except.ok out →
        out ≠ []) := by
  intro db item_id range now
  refine ⟨⟨?_, ?_⟩, ?_, ?_⟩
  · intro he
    rw [get_prices] at he
    split_ifs at he with h <;> try exact Except.noConfusion he
    exact List.isEmpty_iff.mp h
  · intro hnil
    rw [get_prices, if_pos (List.isEmpty_iff.mpr hnil)]
  · intro hne
    rw [get_prices, if_neg (by simpa [List.isEmpty_iff] using hne)]
    refine ⟨_, rfl, ?_⟩
    simpa using hne
  · intro out hok
    rw [get_prices] at hok
    split_ifs at hok with h <;> try exact Except.noConfusion hok
    have hout : (prices_rows db item_id range now).map
        (fun b => (b.timestamp, b.data)) = out := by
      injection hok
    rw [← hout]
    simpa [List.isEmpty_iff] using h

/-- Witness for C6: a 404 on the empty database and a non-empty 200 on the
example database. -/
theorem claim_C6_witness :
    get_prices [] "B" "all" 0 =
      Except.error ⟨404, "No bazaar data for item " ++ "B"⟩ ∧
    ∃ out, get_prices exampleDB "A" "all" 5 = Except.ok out ∧ out ≠ [] := by
  constructor
  · refine (claim_C6_prices_404 [] "B" "all" 0).1.mpr ?_
    rw [prices_rows]
    simp [apply_time_filters, price_start, List.mergeSort_nil]
  · exact (claim_C6_prices_404 exampleDB "A" "all" 5).2.1
      (by rw [prices_rows_exampleDB]; exact List.cons_ne_nil _ _)

/-- The descending-ordered matching rows of `/sold` are sorted by
non-increasing timestamp. -/
theorem sold_rows_sorted (db : List Bazaar) (item_id : String) :
    List.Pairwise (fun a b : Bazaar =>
      decide (b.timestamp ≤ a.timestamp) = true) (sold_rows db item_id) := by
  rw [sold_rows]
  exact List.sorted_mergeSort
    (fun a b c hab hbc => by
      simp only [decide_eq_true_eq] at hab hbc ⊢
      exact le_trans hbc hab)
    (fun a b => by
      simp only [Bool.or_eq_true, decide_eq_true_eq]
      exact le_total b.timestamp a.timestamp) _

/-- Membership in the `/sold` row list is membership in the table with the
requested product id. -/
theorem mem_sold_rows {db : List Bazaar} {item_id : String} {b : Bazaar} :
    b ∈ sold_rows db item_id ↔ b ∈ db ∧ b.product_id = item_id := by
  rw [sold_rows, (List.mergeSort_perm _ _).mem_iff, List.mem_filter]
  simp

/-- C8: `GET /sold/{item_id}` answers 404 with a message naming the item
exactly when the item has no rows at all; on success it returns the payload
of a matching row whose timestamp is maximal among the item's rows. -/
theorem claim_C8_sold_latest :
    ∀ (db : List Bazaar) (item_id : String),
      (get_bazaar_sold db item_id =
          Except.error ⟨404, "No bazaar data for item " ++ item_id⟩ ↔
        ∀ b ∈ db, b.product_id ≠ item_id) ∧
      (∀ d, get_bazaar_sold db item_id = Except.ok d →
        ∃ b ∈ db, b.product_id = item_id ∧ b.data = d ∧
          ∀ b' ∈ db, b'.product_id = item_id →
            b'.timestamp ≤ b.timestamp) := by
  intro db item_id
  have hnil : sold_rows db item_id = [] ↔ ∀ b ∈ db, b.product_id ≠ item_id := by
    rw [sold_rows]
    rw [List.eq_nil_iff_forall_not_mem]
    constructor
    · intro h b hb heq
      exact h b (((List.mergeSort_perm _ _).mem_iff).mpr
        (List.mem_filter.mpr ⟨hb, by simpa using heq⟩))
    · intro h b hb
      have := List.mem_filter.mp (((List.mergeSort_perm _ _).mem_iff).mp hb)
      exact h b this.1 (by simpa using this.2)
  constructor
  · rw [get_bazaar_sold]
    cases hson : sold_rows db item_id with
    | nil =>
      simpa using hnil.mp hson
    | cons r rest =>
      simp only []
      constructor
      · intro he
        exact Except.noConfusion he
      · intro hall
        exact absurd hson (by simp [hnil.mpr hall])
  · intro d hok
    rw [get_bazaar_sold] at hok
    cases hson : sold_rows db item_id with
    | nil =>
      rw [hson] at hok
      exact Except.noConfusion hok
    | cons r rest =>
      rw [hson] at hok
      have hd : r.data = d := by
        injection hok
      have hr : r ∈ db ∧ r.product_id = item_id :=
        mem_sold_rows.mp (by rw [hson]; exact List.mem_cons_self r rest)
      refine ⟨r, hr.1, hr.2, hd, ?_⟩
      intro b' hb' hb'id
      have hmem : b' ∈ sold_rows db item_id :=
        mem_sold_rows.mpr ⟨hb', hb'id⟩
      rw [hson] at hmem
      rcases List.mem_cons.mp hmem with rfl | htail
      · exact le_rfl
      · have hpa := sold_rows_sorted db item_id
        rw [hson] at hpa
        have := (List.pairwise_cons.mp hpa).1 b' htail
        simpa using this

/-- Witness for C8: the latest payload on the example database and the 404
on the empty database. -/
theorem claim_C8_witness :
    (∃ b ∈ exampleDB, b.product_id = "A" ∧ b.data = exampleRow.data ∧
      ∀ b' ∈ exampleDB, b'.product_id = "A" →
        b'.timestamp ≤ b.timestamp) ∧
    get_bazaar_sold [] "B" =
      Except.error ⟨404, "No bazaar data for item " ++ "B"⟩ := by
  constructor
  · refine (claim_C8_sold_latest exampleDB "A").2 exampleRow.data ?_
    rw [get_bazaar_sold, sold_rows]
    simp [exampleDB, exampleRow, List.mergeSort_singleton]
  · refine (claim_C8_sold_latest [] "B").1.mpr ?_
    simp

/-- C9: `GET /items` returns each product id present in the bazaar table
exactly once, and the returned list is strictly increasing (hence sorted
ascending with no duplicates). -/
theorem claim_C9_items :
    ∀ db : List Bazaar,
      (∀ x : String, x ∈ list_items db ↔ ∃ b ∈ db, b.product_id = x) ∧
      (list_items db).Nodup ∧
      List.Pairwise (fun a b : String => a < b) (list_items db) := by
  intro db
  have hperm := List.mergeSort_perm ((db.map (fun b => b.product_id)).dedup)
    (fun a b => decide (a ≤ b))
  have hnd : (list_items db).Nodup := by
    rw [list_items]
    exact hperm.symm.nodup (List.nodup_dedup _)
  refine ⟨?_, hnd, ?_⟩
  · intro x
    rw [list_items, hperm.mem_iff, List.mem_dedup, List.mem_map]
  · have hsorted : List.Pairwise (fun a b : String => decide (a ≤ b) = true)
        (list_items db) := by
      rw [list_items]
      exact List.sorted_mergeSort
        (fun a b c hab hbc => by
          simp only [decide_eq_true_eq] at hab hbc ⊢
          exact le_trans hab hbc)
        (fun a b => by
          simp only [Bool.or_eq_true, decide_eq_true_eq]
          exact le_total a b) _
    exact (hsorted.and hnd).imp
      (fun h => lt_of_le_of_ne (by simpa using h.1) h.2)

end PulsionSB
